import Mathlib

/-!
Verification of the upload-to-prediction-to-report pipeline of
`src/app.py` (Airbnb cold-start rating dashboard), against its
natural-language specification.

Shallow embedding choices:
* A pandas `DataFrame` is a `Table`: an ordered list of column names
  (the header) together with a list of rows, each row a list of cell
  values.  Rectangularity (`Table.WF`) is stated as a hypothesis where
  a proof needs it, exactly as pandas guarantees it after `read_csv`.
* Cell values are either numbers (modelled as `Nat`; the claims under
  study do not depend on sign or fractional values) or strings.
* The delimited-text encoding used by `to_csv` / `read_csv` is modelled
  at the record level: a CSV document is a list of records, each a list
  of string fields (the header record first).  Character-level quoting
  and escaping is the CSV library's concern and is bijective, so it is
  abstracted away; what remains is exactly the lossy part, pandas's
  column-wise type inference.
* The scikit-learn model artifact is not part of this repository's
  sources.  Its interface is modelled from the spec (see `Model`).
* Streamlit control flow (`st.stop`, uncaught exceptions) is modelled
  by `Option` results plus an explicit event trace.
-/

/-- The closed set of predicted labels (spec section 3: Predicted Label). -/
inductive Label where
  | great
  | average
  | poor
deriving DecidableEq

/-- A cell value: numeric or string.  `pd.read_csv` type inference
produces homogeneous columns of one of these kinds. -/
inductive Value where
  | num (n : Nat)
  | str (s : String)
deriving DecidableEq

/-- An in-memory table with named columns, the embedding of a pandas
`DataFrame`: a header (column names, in order) and a list of rows. -/
structure Table where
  header : List String
  rows : List (List Value)
deriving DecidableEq

/-- Rectangularity: every row has exactly one cell per header column.
pandas maintains this invariant for every `DataFrame`. -/
def Table.WF (t : Table) : Prop :=
  ∀ r ∈ t.rows, r.length = t.header.length

/-- Look up the cell of row `vs` under column `c` of header `hs`
(first matching column, as pandas column indexing does). -/
def getCell : List String → List Value → String → Value
  | [], _, _ => Value.str ""
  | _ :: _, [], _ => Value.str ""
  | h :: hs, v :: vs, c => if h = c then v else getCell hs vs c

/-- Overwrite the cell of row `vs` under column `c` of header `hs`
(first matching column), used when assigning to an existing column. -/
def setCell : List String → List Value → String → Value → List Value
  | [], vs, _, _ => vs
  | _ :: _, [], _, _ => []
  | h :: hs, v :: vs, c, x => if h = c then x :: vs else v :: setCell hs vs c x

/-- app.py lines 60-62: `for col in expected_cols: if col not in
df.columns: df[col] = 0` — append each expected column that is absent,
filled with 0 in every row. -/
def addMissing : Table → List String → Table
  | t, [] => t
  | t, c :: cs =>
      addMissing
        (if c ∈ t.header then t
         else ⟨t.header ++ [c], t.rows.map (fun r => r ++ [Value.num 0])⟩)
        cs

/-- Column projection `df[cols]`: keep exactly `cols`, in that order. -/
def Table.select (t : Table) (cols : List String) : Table :=
  ⟨cols, t.rows.map (fun r => cols.map (fun c => getCell t.header r c))⟩

/-- app.py lines 59-63: the Feature Aligner.  Append missing expected
columns as zeros, then project onto the expected columns in order. -/
def align (t : Table) (expected : List String) : Table :=
  (addMissing t expected).select expected

/-- Column assignment `df[name] = vals`: replaces the column if `name`
is already present, otherwise appends it on the right. -/
def Table.addColumn (t : Table) (name : String) (vals : List Value) : Table :=
  if name ∈ t.header then
    ⟨t.header, t.rows.zipWith (fun r v => setCell t.header r name v) vals⟩
  else
    ⟨t.header ++ [name], t.rows.zipWith (fun r v => r ++ [v]) vals⟩

/-- Row filtering `df[df[c] == v]`. -/
def Table.filterEq (t : Table) (c : String) (v : Value) : Table :=
  ⟨t.header, t.rows.filter (fun r => decide (getCell t.header r c = v))⟩

/-- Modelled from the spec: the deserialized classifier artifact
(`rf_model.pkl`) is not part of this repository's sources.  Per spec
section 4.4 it exposes an ordered expected-feature-column list
(`feature_names_in_`) and a per-row prediction into the closed label
set, one label per row in input order. -/
structure Model where
  feature_names_in : List String
  predictRow : List Value → Label

/-- app.py line 66: `model.predict(df)` — one label per row, in row
order (spec section 4.4 `classify`). -/
def classify (m : Model) (t : Table) : List Label :=
  t.rows.map m.predictRow

/-- The cell value a label occupies in the `Predicted_Rating` column. -/
def labelValue : Label → Value
  | Label.great => Value.str "Great"
  | Label.average => Value.str "Average"
  | Label.poor => Value.str "Poor"

/-- app.py lines 54-81 and 133: the per-upload pipeline from the parsed
upload to the table that is displayed, charted and exported
(`group_df`).  `selRoom` and `selGroup` are the sidebar selections;
the code offers only values drawn from the respective column, never an
option that keeps all rows. -/
def runPipelineT (m : Model) (df0 : Table) (selRoom selGroup : Value) : Table :=
  let df1 := align df0 m.feature_names_in
  let preds := classify m df1
  let df2 := df1.addColumn "Predicted_Rating" (preds.map labelValue)
  let df3 := if "room_type" ∈ df2.header
             then df2.filterEq "room_type" selRoom else df2
  if "neighbourhood_group" ∈ df3.header
  then df3.filterEq "neighbourhood_group" selGroup else df3

/-! ### The delimited-text encoding (app.py line 54 `pd.read_csv`,
line 133 `group_df.to_csv`), modelled at the record level. -/

/-- Little-endian decimal digits, with explicit fuel so that the
recursion is structural (the kernel can then evaluate it). -/
def toDigitsRevAux : Nat → Nat → List Nat
  | _, 0 => []
  | 0, _ + 1 => []
  | f + 1, n + 1 => (n + 1) % 10 :: toDigitsRevAux f ((n + 1) / 10)

/-- Little-endian decimal digits of a natural number (empty for 0). -/
def toDigitsRev (n : Nat) : List Nat := toDigitsRevAux n n

/-- Value of a little-endian digit list. -/
def fromDigitsRev : List Nat → Nat
  | [] => 0
  | d :: ds => d + 10 * fromDigitsRev ds

/-- The character for a single decimal digit. -/
def digitChar (d : Nat) : Char := Char.ofNat (48 + d)

/-- Decimal rendering of a natural number, as `to_csv` writes a
numeric cell. -/
def renderNat (n : Nat) : String :=
  if n = 0 then "0" else ⟨((toDigitsRev n).map digitChar).reverse⟩

/-- A field consisting only of decimal digits, which `read_csv`'s type
inference converts to a number. -/
def isNatString (s : String) : Bool :=
  decide (s.data ≠ []) && s.data.all Char.isDigit

/-- Numeric reading of a decimal field. -/
def parseNatS (s : String) : Nat :=
  s.data.foldl (fun acc c => 10 * acc + (c.toNat - 48)) 0

/-- How `to_csv` writes one cell: a number in decimal, a string
verbatim (character-level quoting is the CSV layer's bijective
concern, abstracted away in the record-level encoding). -/
def renderCell : Value → String
  | Value.num n => renderNat n
  | Value.str s => s

/-- app.py line 133: export the table as delimited text — header
record first, then one record per row. -/
def Table.toCSV (t : Table) : List (List String) :=
  t.header :: t.rows.map (fun r => r.map renderCell)

/-- Column-wise type inference: a column is numeric when every one of
its fields is a decimal-digit string, as `read_csv` infers dtypes per
column. -/
def colNumeric (rs : List (List String)) (j : Nat) : Bool :=
  rs.all (fun r => isNatString (r.getD j ""))

/-- One field under a column's inferred type. -/
def parseField (numeric : Bool) (f : String) : Value :=
  if numeric then Value.num (parseNatS f) else Value.str f

/-- app.py line 54: `pd.read_csv` — first record is the header, each
later record a row, with column-wise type inference. -/
def parseCSV : List (List String) → Table
  | [] => ⟨[], []⟩
  | h :: rs =>
      ⟨h, rs.map (fun r =>
        (List.range h.length).map (fun j => parseField (colNumeric rs j) (r.getD j "")))⟩

/-- app.py lines 52-133: full pipeline from the uploaded delimited
text to the exported table. -/
def runPipeline (m : Model) (raw : List (List String)) (selRoom selGroup : Value) : Table :=
  runPipelineT m (parseCSV raw) selRoom selGroup

/-! ### The rating-proportion table (app.py lines 91-93). -/

/-- `value_counts`: each distinct value paired with its number of
occurrences.  (pandas additionally orders by descending count; the
properties under study are order-independent, so first-occurrence
order is kept.) -/
def valueCounts (vs : List Value) : List (Value × Nat) :=
  vs.dedup.map (fun v => (v, vs.count v))

/-- `value_counts(normalize=True) * 100`: the exact percentage of each
distinct value. -/
def proportionPercents (vs : List Value) : List ℚ :=
  (valueCounts vs).map (fun p => (p.2 : ℚ) / (vs.length : ℚ) * 100)

/-- `.round(2)`: rounding to two decimal places. -/
def round2 (q : ℚ) : ℚ := (round (q * 100) : ℚ) / 100

/-- The `Predicted_Rating` column of a labeled table. -/
def labelColumn (t : Table) : List Value :=
  t.rows.map (fun r => getCell t.header r "Predicted_Rating")

/-! ### The Model Provider (app.py lines 28-43 `load_model`). -/

/-- The bytes cached at the fixed local path `rf_model.pkl`: either a
blob that deserializes to a model, or one that does not. -/
inductive Artifact where
  | good (m : Model)
  | corrupt

/-- The local persistent storage visible to `load_model`: the content
of the fixed cache path, `none` when the file is absent. -/
structure Disk where
  artifact : Option Artifact

/-- Observable steps of one request, used to state which operations
run and how often. -/
inductive Event where
  | download
  | deserialize
  | alignStep
  | predictStep
  | renderStep
  | exportStep
deriving DecidableEq

/-- Outcome of one `load_model` call: the disk afterwards, the events
that ran, and the model — `none` when the call halted the request
(`st.stop` after a failed `joblib.load`, or the exception of a failed
download escaping the top-level `model = load_model()` call). -/
structure LoadResult where
  disk : Disk
  events : List Event
  model : Option Model

/-- app.py lines 29-41: download only when the cache file is absent
(`fetched` is what a download would leave at the cache path, `none`
for a fetch that fails leaving no usable file), then try to
deserialize the cached file; on failure surface the error and stop. -/
def load_model (disk : Disk) (fetched : Option Artifact) : LoadResult :=
  let disk1 : Disk := if disk.artifact.isSome then disk else ⟨fetched⟩
  let evs : List Event := if disk.artifact.isSome then [] else [Event.download]
  match disk1.artifact with
  | some (Artifact.good m) => ⟨disk1, evs ++ [Event.deserialize], some m⟩
  | some Artifact.corrupt => ⟨disk1, evs ++ [Event.deserialize], none⟩
  | none => ⟨disk1, evs ++ [Event.deserialize], none⟩

/-- app.py lines 43-138: one full request.  `load_model` runs first at
module level; if it halts, nothing after it runs.  With a model and an
upload, the pipeline steps run and the export is offered. -/
def runApp (disk : Disk) (fetched : Option Artifact)
    (upload : Option (List (List String))) (selRoom selGroup : Value) :
    Disk × List Event × Option Table :=
  let lr := load_model disk fetched
  match lr.model with
  | none => (lr.disk, lr.events, none)
  | some m =>
    match upload with
    | none => (lr.disk, lr.events, none)
    | some raw =>
        (lr.disk,
         lr.events ++ [Event.alignStep, Event.predictStep, Event.renderStep, Event.exportStep],
         some (runPipeline m raw selRoom selGroup))

/-! ### Column homogeneity, the re-ingestion precondition of the
round-trip property. -/

/-- Is the cell numeric? -/
def Value.isNum : Value → Bool
  | Value.num _ => true
  | Value.str _ => false

/-- A string cell whose text is not made of digits only, so column
inference would keep its column non-numeric on re-ingestion. -/
def strNotNumeric : Value → Bool
  | Value.num _ => false
  | Value.str s => !isNatString s

/-- Column `j` of `t` is homogeneous the way `read_csv` output is:
either all cells numeric, or all cells strings with at least one cell
whose text does not read back as a number. -/
def homogCol (t : Table) (j : Nat) : Prop :=
  (∀ r ∈ t.rows, (r.getD j (Value.str "")).isNum = true) ∨
  ((∀ r ∈ t.rows, (r.getD j (Value.str "")).isNum = false) ∧
   (∃ r ∈ t.rows, strNotNumeric (r.getD j (Value.str "")) = true))

/-! ### Concrete instances used as witnesses and counterexamples. -/

/-- A model expecting only `price`, predicting Great everywhere. -/
def modelP : Model := ⟨["price"], fun _ => Label.great⟩

/-- A model expecting only `room_type`, predicting Great everywhere. -/
def modelR : Model := ⟨["room_type"], fun _ => Label.great⟩

/-- An upload whose `room_type` column holds the strings `abc` and
`1`; after filtering to `room_type == "1"` the exported column holds
only digit strings. -/
def rawRT : List (List String) := [["room_type"], ["abc"], ["1"]]

/-- The pipeline output for `rawRT` under `modelR`, filtered to rows
with `room_type == "1"`. -/
def tRT : Table := runPipeline modelR rawRT (Value.str "1") (Value.str "")

instance (t : Table) : Decidable t.WF :=
  inferInstanceAs (Decidable (∀ r ∈ t.rows, r.length = t.header.length))

instance (t : Table) (j : Nat) : Decidable (homogCol t j) :=
  inferInstanceAs (Decidable (_ ∨ _))

/-! ### Lemmas about cell lookup and alignment. -/

theorem getCell_append_left (e : List String) (w : List Value) (c : String) :
    ∀ (hs : List String) (vs : List Value), c ∈ hs → hs.length = vs.length →
      getCell (hs ++ e) (vs ++ w) c = getCell hs vs c := by
  intro hs
  induction hs with
  | nil => intro vs hc _; simp at hc
  | cons h hs ih =>
      intro vs hc hlen
      cases vs with
      | nil => simp at hlen
      | cons v vs =>
          simp only [List.cons_append, getCell]
          by_cases hhc : h = c
          · simp [hhc]
          · rw [if_neg hhc, if_neg hhc]
            apply ih
            · cases hc with
              | head => exact absurd rfl hhc
              | tail _ hc => exact hc
            · simpa using hlen

theorem getCell_append_right (e : List String) (w : List Value) (c : String) :
    ∀ (hs : List String) (vs : List Value), c ∉ hs → hs.length = vs.length →
      getCell (hs ++ e) (vs ++ w) c = getCell e w c := by
  intro hs
  induction hs with
  | nil =>
      intro vs _ hlen
      cases vs with
      | nil => rfl
      | cons v vs => simp at hlen
  | cons h hs ih =>
      intro vs hc hlen
      cases vs with
      | nil => simp at hlen
      | cons v vs =>
          simp only [List.cons_append, getCell]
          by_cases hhc : h = c
          · subst hhc
            exact absurd (List.mem_cons_self h hs) hc
          · rw [if_neg hhc]
            exact ih vs (fun hm => hc (List.mem_cons_of_mem h hm)) (by simpa using hlen)

theorem getCell_replicate_zero (c : String) :
    ∀ (e : List String) (k : Nat), c ∈ e → e.length ≤ k →
      getCell e (List.replicate k (Value.num 0)) c = Value.num 0 := by
  intro e
  induction e with
  | nil => intro k hc _; simp at hc
  | cons h e ih =>
      intro k hc hlen
      cases k with
      | zero => simp at hlen
      | succ k =>
          rw [List.replicate_succ]
          simp only [getCell]
          by_cases hhc : h = c
          · simp [hhc]
          · rw [if_neg hhc]
            apply ih
            · cases hc with
              | head => exact absurd rfl hhc
              | tail _ hc => exact hc
            · simpa using hlen

theorem getCell_map_self (g : String → Value) :
    ∀ (hs : List String) (c : String), c ∈ hs → getCell hs (hs.map g) c = g c := by
  intro hs
  induction hs with
  | nil => intro c hc; simp at hc
  | cons h hs ih =>
      intro c hc
      simp only [List.map_cons, getCell]
      by_cases hhc : h = c
      · simp [hhc]
      · rw [if_neg hhc]
        apply ih
        cases hc with
        | head => exact absurd rfl hhc
        | tail _ hc => exact hc

theorem addMissing_spec :
    ∀ (S : List String) (t : Table), ∃ extra : List String,
      (addMissing t S).header = t.header ++ extra ∧
      (∀ c ∈ extra, c ∉ t.header) ∧
      (∀ c ∈ S, c ∈ t.header ++ extra) ∧
      (addMissing t S).rows
        = t.rows.map (fun r => r ++ List.replicate extra.length (Value.num 0)) := by
  intro S
  induction S with
  | nil =>
      intro t
      exact ⟨[], by simp [addMissing], by simp, by simp, by simp [addMissing]⟩
  | cons c cs ih =>
      intro t
      by_cases hc : c ∈ t.header
      · obtain ⟨extra, h1, h2, h3, h4⟩ := ih t
        have hstep : addMissing t (c :: cs) = addMissing t cs := by
          simp [addMissing, hc]
        refine ⟨extra, ?_, h2, ?_, ?_⟩
        · rw [hstep]; exact h1
        · intro x hx
          cases hx with
          | head => exact List.mem_append_left _ hc
          | tail _ hx => exact h3 x hx
        · rw [hstep]; exact h4
      · obtain ⟨extra, h1, h2, h3, h4⟩ :=
          ih ⟨t.header ++ [c], t.rows.map (fun r => r ++ [Value.num 0])⟩
        have hstep : addMissing t (c :: cs)
            = addMissing ⟨t.header ++ [c], t.rows.map (fun r => r ++ [Value.num 0])⟩ cs := by
          simp [addMissing, hc]
        refine ⟨c :: extra, ?_, ?_, ?_, ?_⟩
        · rw [hstep, h1]; simp
        · intro x hx
          cases hx with
          | head => exact hc
          | tail _ hx => exact fun hxh => h2 x hx (List.mem_append_left _ hxh)
        · intro x hx
          cases hx with
          | head =>
              exact List.mem_append_right _ (List.mem_cons_self _ _)
          | tail _ hx =>
              have hx3 := h3 x hx
              simpa [List.append_assoc] using hx3
        · rw [hstep, h4]
          simp [List.map_map, Function.comp, List.replicate_succ, List.append_assoc]

theorem align_header (t : Table) (S : List String) : (align t S).header = S := rfl

theorem align_rows (t : Table) (S : List String) :
    ∀ r ∈ (align t S).rows, ∃ r0 ∈ t.rows,
      r = S.map (fun c => getCell (addMissing t S).header
        (r0 ++ List.replicate ((addMissing t S).header.length - t.header.length) (Value.num 0)) c) := by
  obtain ⟨extra, h1, _, _, h4⟩ := addMissing_spec S t
  intro r hr
  simp only [align, Table.select, List.mem_map] at hr
  obtain ⟨r1, hr1, rfl⟩ := hr
  rw [h4, List.mem_map] at hr1
  obtain ⟨r0, hr0, rfl⟩ := hr1
  refine ⟨r0, hr0, ?_⟩
  rw [h1]
  simp

/-- C2: for every input table and expected schema, alignment is total
and deterministic; its result has exactly the expected columns in the
expected order, with each missing expected column zero-filled in every
row, and every column outside the schema dropped. -/
theorem c2_align_spec (t : Table) (S : List String) (hwf : t.WF) :
    (align t S).header = S ∧
    (align t S).rows.length = t.rows.length ∧
    (∀ r ∈ (align t S).rows, r.length = S.length) ∧
    (∀ c, c ∉ S → c ∉ (align t S).header) ∧
    (∀ c ∈ S, c ∉ t.header → ∀ r ∈ (align t S).rows, getCell S r c = Value.num 0) := by
  obtain ⟨extra, h1, _h2, h3, h4⟩ := addMissing_spec S t
  refine ⟨rfl, ?_, ?_, ?_, ?_⟩
  · simp [align, Table.select, h4]
  · intro r hr
    simp only [align, Table.select, List.mem_map] at hr
    obtain ⟨r1, _, rfl⟩ := hr
    simp
  · intro c hcS hmem
    exact hcS hmem
  · intro c hcS hcT r hr
    simp only [align, Table.select, List.mem_map] at hr
    obtain ⟨r1, hr1, rfl⟩ := hr
    rw [h4, List.mem_map] at hr1
    obtain ⟨r0, hr0, rfl⟩ := hr1
    rw [getCell_map_self _ S c hcS, h1]
    rw [getCell_append_right _ _ _ _ _ hcT (hwf r0 hr0).symm]
    have hce : c ∈ extra := by
      rcases List.mem_append.mp (h3 c hcS) with h | h
      · exact absurd h hcT
      · exact h
    exact getCell_replicate_zero c extra extra.length hce le_rfl

/-- Witness for C2 at a concrete table missing the `price` column and
carrying an extra `foo` column. -/
theorem c2_align_spec_witness :
    (Table.WF ⟨["room_type", "foo"], [[Value.str "a", Value.num 5]]⟩) ∧
    ((align ⟨["room_type", "foo"], [[Value.str "a", Value.num 5]]⟩ ["room_type", "price"]).header
        = ["room_type", "price"] ∧
     (align ⟨["room_type", "foo"], [[Value.str "a", Value.num 5]]⟩ ["room_type", "price"]).rows.length
        = 1 ∧
     (∀ r ∈ (align ⟨["room_type", "foo"], [[Value.str "a", Value.num 5]]⟩ ["room_type", "price"]).rows,
        r.length = 2) ∧
     (∀ c, c ∉ (["room_type", "price"] : List String) →
        c ∉ (align ⟨["room_type", "foo"], [[Value.str "a", Value.num 5]]⟩ ["room_type", "price"]).header) ∧
     (∀ c ∈ (["room_type", "price"] : List String),
        c ∉ (["room_type", "foo"] : List String) →
        ∀ r ∈ (align ⟨["room_type", "foo"], [[Value.str "a", Value.num 5]]⟩ ["room_type", "price"]).rows,
          getCell ["room_type", "price"] r c = Value.num 0)) :=
  ⟨by decide, by
    have h := c2_align_spec ⟨["room_type", "foo"], [[Value.str "a", Value.num 5]]⟩
      ["room_type", "price"] (by decide)
    simpa using h⟩

/-! ### Lemmas about column assignment, filtering, and the pipeline
that is displayed and exported. -/

theorem addColumn_header_of_not_mem (t : Table) (name : String) (vals : List Value)
    (h : name ∉ t.header) : (t.addColumn name vals).header = t.header ++ [name] := by
  simp [Table.addColumn, h]

theorem mem_addColumn_header (t : Table) (name : String) (vals : List Value)
    (x : String) (hx : x ∈ t.header) : x ∈ (t.addColumn name vals).header := by
  by_cases h : name ∈ t.header
  · simpa [Table.addColumn, h] using hx
  · simp [Table.addColumn, h]
    exact Or.inl hx

theorem filterEq_header (t : Table) (c : String) (v : Value) :
    (t.filterEq c v).header = t.header := rfl

theorem mem_filterEq_rows (t : Table) (c : String) (v : Value) (r : List Value)
    (hr : r ∈ (t.filterEq c v).rows) : r ∈ t.rows ∧ getCell t.header r c = v := by
  simp only [Table.filterEq, List.mem_filter, decide_eq_true_eq] at hr
  exact hr

theorem runPipelineT_header (m : Model) (df0 : Table) (selRoom selGroup : Value)
    (h : "Predicted_Rating" ∉ m.feature_names_in) :
    (runPipelineT m df0 selRoom selGroup).header
      = m.feature_names_in ++ ["Predicted_Rating"] := by
  have h2 : ((align df0 m.feature_names_in).addColumn "Predicted_Rating"
      ((classify m (align df0 m.feature_names_in)).map labelValue)).header
      = m.feature_names_in ++ ["Predicted_Rating"] := by
    rw [addColumn_header_of_not_mem _ _ _ (by rw [align_header]; exact h), align_header]
  simp only [runPipelineT]
  split
  · split
    · rw [filterEq_header, filterEq_header, h2]
    · rw [filterEq_header, h2]
  · split
    · rw [filterEq_header, h2]
    · exact h2

theorem room_filter_rows (df2 : Table) (selRoom selGroup : Value) :
    ∀ r ∈ (if "neighbourhood_group" ∈ (df2.filterEq "room_type" selRoom).header
           then (df2.filterEq "room_type" selRoom).filterEq "neighbourhood_group" selGroup
           else df2.filterEq "room_type" selRoom).rows,
      getCell df2.header r "room_type" = selRoom := by
  intro r hr
  split at hr
  · exact (mem_filterEq_rows _ _ _ _ (mem_filterEq_rows _ _ _ _ hr).1).2
  · exact (mem_filterEq_rows _ _ _ _ hr).2

theorem runPipelineT_rows_sub (m : Model) (df0 : Table) (selRoom selGroup : Value) :
    ∀ r ∈ (runPipelineT m df0 selRoom selGroup).rows,
      r ∈ ((align df0 m.feature_names_in).addColumn "Predicted_Rating"
        ((classify m (align df0 m.feature_names_in)).map labelValue)).rows := by
  intro r hr
  simp only [runPipelineT] at hr
  split at hr
  · split at hr
    · exact (mem_filterEq_rows _ _ _ _ ((mem_filterEq_rows _ _ _ _ hr).1)).1
    · exact (mem_filterEq_rows _ _ _ _ hr).1
  · split at hr
    · exact (mem_filterEq_rows _ _ _ _ hr).1
    · exact hr

/-- C1 counterexample: the upload `[["foo"], ["3"]]` has the column
`foo`, but the exported result of the pipeline (with a model expecting
only `price`) does not — `df` is overwritten with the aligned table at
app.py line 63 before `Predicted_Rating` is appended at line 67, so
uploaded columns outside the expected schema are not preserved. -/
theorem c1_counterexample :
    "foo" ∈ (parseCSV [["foo"], ["3"]]).header ∧
    "foo" ∉ (runPipeline modelP [["foo"], ["3"]] (Value.str "") (Value.str "")).header := by
  decide

/-- C1 as amended: the prediction step appends `Predicted_Rating` to
the aligned table, so the displayed and exported table's schema is the
model's expected feature schema plus one appended `Predicted_Rating`
column; uploaded columns outside the expected schema are dropped. -/
theorem c1_output_schema (m : Model) (raw : List (List String)) (selRoom selGroup : Value)
    (h : "Predicted_Rating" ∉ m.feature_names_in) :
    (runPipeline m raw selRoom selGroup).header
      = m.feature_names_in ++ ["Predicted_Rating"] :=
  runPipelineT_header m (parseCSV raw) selRoom selGroup h

/-- Witness for the amended C1 at a concrete upload. -/
theorem c1_output_schema_witness :
    ("Predicted_Rating" ∉ modelP.feature_names_in) ∧
    (runPipeline modelP [["foo"], ["3"]] (Value.str "") (Value.str "")).header
      = modelP.feature_names_in ++ ["Predicted_Rating"] :=
  ⟨by decide, c1_output_schema modelP [["foo"], ["3"]] (Value.str "") (Value.str "") (by decide)⟩

/-- C9: whenever the expected feature columns include `room_type`,
every row of the displayed, charted and exported table has the single
selected `room_type` value — the filter is applied unconditionally. -/
theorem c9_room_filter (m : Model) (raw : List (List String)) (selRoom selGroup : Value)
    (h : "room_type" ∈ m.feature_names_in) :
    ∀ r ∈ (runPipeline m raw selRoom selGroup).rows,
      getCell (runPipeline m raw selRoom selGroup).header r "room_type" = selRoom := by
  have hmem : "room_type" ∈ ((align (parseCSV raw) m.feature_names_in).addColumn
      "Predicted_Rating"
      ((classify m (align (parseCSV raw) m.feature_names_in)).map labelValue)).header :=
    mem_addColumn_header _ _ _ _ (by rw [align_header]; exact h)
  intro r hr
  simp only [runPipeline, runPipelineT] at hr ⊢
  rw [if_pos hmem] at hr ⊢
  have hdr : (if "neighbourhood_group" ∈
        (((align (parseCSV raw) m.feature_names_in).addColumn "Predicted_Rating"
          ((classify m (align (parseCSV raw) m.feature_names_in)).map labelValue)).filterEq
            "room_type" selRoom).header
      then (((align (parseCSV raw) m.feature_names_in).addColumn "Predicted_Rating"
          ((classify m (align (parseCSV raw) m.feature_names_in)).map labelValue)).filterEq
            "room_type" selRoom).filterEq "neighbourhood_group" selGroup
      else ((align (parseCSV raw) m.feature_names_in).addColumn "Predicted_Rating"
          ((classify m (align (parseCSV raw) m.feature_names_in)).map labelValue)).filterEq
            "room_type" selRoom).header
      = ((align (parseCSV raw) m.feature_names_in).addColumn "Predicted_Rating"
          ((classify m (align (parseCSV raw) m.feature_names_in)).map labelValue)).header := by
    split <;> rfl
  rw [hdr]
  exact room_filter_rows _ selRoom selGroup r hr

/-- Witness for C9: with the expected schema `[room_type]` and the
selected value `"1"`, the one exported row carries `room_type = "1"`. -/
theorem c9_room_filter_witness :
    ("room_type" ∈ modelR.feature_names_in) ∧
    getCell (runPipeline modelR rawRT (Value.str "1") (Value.str "")).header
      [Value.str "1", Value.str "Great"] "room_type" = Value.str "1" :=
  ⟨by decide, c9_room_filter modelR rawRT (Value.str "1") (Value.str "") (by decide)
      [Value.str "1", Value.str "Great"] (by decide)⟩

/-! ### Model Provider claims. -/

theorem load_model_events (disk : Disk) (fetched : Option Artifact) :
    (load_model disk fetched).events = [Event.deserialize] ∨
    (load_model disk fetched).events = [Event.download, Event.deserialize] := by
  rcases disk with ⟨a⟩
  cases a with
  | none =>
      cases fetched with
      | none => right; rfl
      | some art => cases art <;> (right; rfl)
  | some art => cases art <;> (left; rfl)

theorem load_model_fails (disk : Disk) (fetched : Option Artifact)
    (hdisk : ∀ m : Model, disk.artifact ≠ some (Artifact.good m))
    (hfetch : ∀ m : Model, fetched ≠ some (Artifact.good m)) :
    (load_model disk fetched).model = none := by
  rcases disk with ⟨a⟩
  cases a with
  | none =>
      cases fetched with
      | none => rfl
      | some art =>
          cases art with
          | good m => exact absurd rfl (hfetch m)
          | corrupt => rfl
  | some art =>
      cases art with
      | good m => exact absurd rfl (hdisk m)
      | corrupt => rfl

theorem runApp_halted (disk : Disk) (fetched : Option Artifact)
    (upload : Option (List (List String))) (selRoom selGroup : Value)
    (h : (load_model disk fetched).model = none) :
    runApp disk fetched upload selRoom selGroup
      = ((load_model disk fetched).disk, (load_model disk fetched).events, none) := by
  simp [runApp, h]

/-- C4: when a cached artifact exists at the fixed local path,
`load_model` performs no network fetch — it only deserializes the
cached file and leaves the disk unchanged; the download step is
reached only when the cache file is absent. -/
theorem c4_cached_no_download (disk : Disk) (fetched : Option Artifact) (a : Artifact)
    (h : disk.artifact = some a) :
    (load_model disk fetched).events = [Event.deserialize] ∧
    (load_model disk fetched).disk = disk ∧
    Event.download ∉ (load_model disk fetched).events := by
  cases a <;> simp [load_model, h]

/-- Witness for C4 at a concrete cached disk. -/
theorem c4_cached_no_download_witness :
    ((⟨some Artifact.corrupt⟩ : Disk).artifact = some Artifact.corrupt) ∧
    ((load_model ⟨some Artifact.corrupt⟩ none).events = [Event.deserialize] ∧
     (load_model ⟨some Artifact.corrupt⟩ none).disk = ⟨some Artifact.corrupt⟩ ∧
     Event.download ∉ (load_model ⟨some Artifact.corrupt⟩ none).events) :=
  ⟨rfl, c4_cached_no_download ⟨some Artifact.corrupt⟩ none Artifact.corrupt rfl⟩

/-- C5: when neither the cache nor a fetch yields a good artifact —
fetch or deserialization fails — the request halts with no output, no
pipeline step (alignment, prediction, rendering, export) runs, and
nothing is retried (at most one download and one deserialization). -/
theorem c5_load_failure_fatal (disk : Disk) (fetched : Option Artifact)
    (upload : Option (List (List String))) (selRoom selGroup : Value)
    (hdisk : ∀ m : Model, disk.artifact ≠ some (Artifact.good m))
    (hfetch : ∀ m : Model, fetched ≠ some (Artifact.good m)) :
    (runApp disk fetched upload selRoom selGroup).2.2 = none ∧
    (∀ e ∈ (runApp disk fetched upload selRoom selGroup).2.1,
        e = Event.download ∨ e = Event.deserialize) ∧
    (runApp disk fetched upload selRoom selGroup).2.1.count Event.download ≤ 1 ∧
    (runApp disk fetched upload selRoom selGroup).2.1.count Event.deserialize ≤ 1 := by
  rw [runApp_halted disk fetched upload selRoom selGroup
      (load_model_fails disk fetched hdisk hfetch)]
  rcases load_model_events disk fetched with he | he <;> rw [he] <;>
    refine ⟨rfl, ?_, ?_, ?_⟩ <;> simp [List.count_cons]

/-- Witness for C5: absent cache and failing fetch with an upload
present — the output is still `none` and only load events occur. -/
theorem c5_load_failure_fatal_witness :
    ((∀ m : Model, (⟨none⟩ : Disk).artifact ≠ some (Artifact.good m)) ∧
     (∀ m : Model, (none : Option Artifact) ≠ some (Artifact.good m))) ∧
    ((runApp ⟨none⟩ none (some [["foo"], ["3"]]) (Value.str "") (Value.str "")).2.2 = none ∧
     (∀ e ∈ (runApp ⟨none⟩ none (some [["foo"], ["3"]]) (Value.str "") (Value.str "")).2.1,
        e = Event.download ∨ e = Event.deserialize) ∧
     (runApp ⟨none⟩ none (some [["foo"], ["3"]]) (Value.str "")
        (Value.str "")).2.1.count Event.download ≤ 1 ∧
     (runApp ⟨none⟩ none (some [["foo"], ["3"]]) (Value.str "")
        (Value.str "")).2.1.count Event.deserialize ≤ 1) :=
  ⟨⟨fun _ h => Option.noConfusion h, fun _ h => Option.noConfusion h⟩,
   c5_load_failure_fatal ⟨none⟩ none (some [["foo"], ["3"]]) (Value.str "") (Value.str "")
     (fun _ h => Option.noConfusion h) (fun _ h => Option.noConfusion h)⟩

/-- C10: with a corrupt artifact cached at the fixed path, `load_model`
skips the download, fails at deserialization, halts, and leaves the
cache file in place — so every subsequent call does the same until the
file is removed outside the system. -/
theorem c10_corrupt_cache_persists (disk : Disk) (fetched : Option Artifact)
    (h : disk.artifact = some Artifact.corrupt) :
    (load_model disk fetched).disk = disk ∧
    (load_model disk fetched).model = none ∧
    Event.download ∉ (load_model disk fetched).events ∧
    (∀ fetched2 : Option Artifact,
      (load_model (load_model disk fetched).disk fetched2).model = none ∧
      Event.download ∉ (load_model (load_model disk fetched).disk fetched2).events) := by
  rcases disk with ⟨a⟩
  have ha : a = some Artifact.corrupt := h
  subst ha
  have he : (load_model ⟨some Artifact.corrupt⟩ fetched).events = [Event.deserialize] := rfl
  refine ⟨rfl, rfl, ?_, fun f2 => ⟨rfl, ?_⟩⟩
  · rw [he]; decide
  · rw [show (load_model (load_model ⟨some Artifact.corrupt⟩ fetched).disk f2).events
        = [Event.deserialize] from rfl]
    decide

/-- Witness for C10 at a concrete corrupt cache. -/
theorem c10_corrupt_cache_persists_witness :
    ((⟨some Artifact.corrupt⟩ : Disk).artifact = some Artifact.corrupt) ∧
    ((load_model ⟨some Artifact.corrupt⟩ (some Artifact.corrupt)).disk
        = ⟨some Artifact.corrupt⟩ ∧
     (load_model ⟨some Artifact.corrupt⟩ (some Artifact.corrupt)).model = none ∧
     Event.download ∉ (load_model ⟨some Artifact.corrupt⟩ (some Artifact.corrupt)).events ∧
     (∀ fetched2 : Option Artifact,
       (load_model (load_model ⟨some Artifact.corrupt⟩
          (some Artifact.corrupt)).disk fetched2).model = none ∧
       Event.download ∉ (load_model (load_model ⟨some Artifact.corrupt⟩
          (some Artifact.corrupt)).disk fetched2).events)) :=
  ⟨rfl, c10_corrupt_cache_persists ⟨some Artifact.corrupt⟩ (some Artifact.corrupt) rfl⟩

/-- C3: `classify` produces exactly one label per row of the aligned
table, in row order, and every label is in the closed set
{Great, Average, Poor}. -/
theorem c3_classify_spec (m : Model) (t : Table) :
    (classify m t).length = t.rows.length ∧
    ∀ l ∈ classify m t, l = Label.great ∨ l = Label.average ∨ l = Label.poor := by
  refine ⟨by simp [classify], ?_⟩
  intro l _
  cases l
  · exact Or.inl rfl
  · exact Or.inr (Or.inl rfl)
  · exact Or.inr (Or.inr rfl)

/-! ### Empty-upload behavior. -/

theorem runPipelineT_rows_nil (m : Model) (df0 : Table) (selRoom selGroup : Value)
    (h : df0.rows = []) : (runPipelineT m df0 selRoom selGroup).rows = [] := by
  have h2 : ((align df0 m.feature_names_in).addColumn "Predicted_Rating"
      ((classify m (align df0 m.feature_names_in)).map labelValue)).rows = [] := by
    have h1 : (align df0 m.feature_names_in).rows = [] := by
      obtain ⟨extra, _, _, _, h4⟩ := addMissing_spec m.feature_names_in df0
      simp [align, Table.select, h4, h]
    rw [Table.addColumn]
    split <;> simp [h1]
  rw [List.eq_nil_iff_forall_not_mem]
  intro r hr
  have hsub := runPipelineT_rows_sub m df0 selRoom selGroup r hr
  rw [h2] at hsub
  exact absurd hsub (List.not_mem_nil r)

/-- C8: an upload with a header record and zero data records flows
through the whole pipeline — the result has no rows, the proportions
table is empty, every label count is zero (the chart input), and the
export is a header-only CSV. -/
theorem c8_empty_table (m : Model) (hd : List String) (selRoom selGroup : Value) :
    (runPipeline m [hd] selRoom selGroup).rows = [] ∧
    valueCounts (labelColumn (runPipeline m [hd] selRoom selGroup)) = [] ∧
    (∀ v : Value, (labelColumn (runPipeline m [hd] selRoom selGroup)).count v = 0) ∧
    (runPipeline m [hd] selRoom selGroup).toCSV
      = [(runPipeline m [hd] selRoom selGroup).header] := by
  have h0 : (parseCSV [hd]).rows = [] := by simp [parseCSV]
  have hr : (runPipeline m [hd] selRoom selGroup).rows = [] :=
    runPipelineT_rows_nil m (parseCSV [hd]) selRoom selGroup h0
  refine ⟨hr, ?_, ?_, ?_⟩
  · simp [valueCounts, labelColumn, hr]
  · intro v; simp [labelColumn, hr]
  · simp [Table.toCSV, hr]

/-! ### The rating-proportion percentages. -/

theorem abs_round2_sub (x : ℚ) : |round2 x - x| ≤ 1 / 200 := by
  have h := abs_sub_round (x * 100)
  rw [abs_sub_comm] at h
  have he : round2 x - x = ((round (x * 100) : ℚ) - x * 100) / 100 := by
    rw [round2]; ring
  rw [he, abs_div, show |(100 : ℚ)| = 100 from by norm_num]
  have h2 := (div_le_div_iff_of_pos_right (show (0 : ℚ) < 100 from by norm_num)).mpr h
  calc |(round (x * 100) : ℚ) - x * 100| / 100 ≤ (1 / 2) / 100 := h2
    _ = 1 / 200 := by norm_num

theorem abs_sum_round2 (l : List ℚ) :
    |(l.map round2).sum - l.sum| ≤ (l.length : ℚ) / 200 := by
  induction l with
  | nil => simp
  | cons x xs ih =>
      simp only [List.map_cons, List.sum_cons, List.length_cons]
      calc |round2 x + (xs.map round2).sum - (x + xs.sum)|
          = |(round2 x - x) + ((xs.map round2).sum - xs.sum)| := by congr 1; ring
        _ ≤ |round2 x - x| + |(xs.map round2).sum - xs.sum| := abs_add _ _
        _ ≤ 1 / 200 + (xs.length : ℚ) / 200 := add_le_add (abs_round2_sub x) ih
        _ = ((xs.length + 1 : Nat) : ℚ) / 200 := by push_cast; ring

theorem proportionPercents_sum (vs : List Value) (h : vs ≠ []) :
    (proportionPercents vs).sum = 100 := by
  have hn : (vs.length : ℚ) ≠ 0 :=
    Nat.cast_ne_zero.mpr (fun h0 => h (List.length_eq_zero.mp h0))
  unfold proportionPercents valueCounts
  rw [List.map_map]
  have hf : ((fun p : Value × Nat => (p.2 : ℚ) / (vs.length : ℚ) * 100) ∘
      (fun v => (v, vs.count v)))
      = fun v => ((vs.count v : ℕ) : ℚ) * (100 / (vs.length : ℚ)) := by
    funext v
    simp only [Function.comp]
    ring
  rw [hf, List.sum_map_mul_right]
  have hcast := Nat.cast_list_sum (β := ℚ) (vs.dedup.map fun v => vs.count v)
  rw [List.map_map] at hcast
  rw [show (fun v => ((vs.count v : ℕ) : ℚ))
      = (Nat.cast ∘ fun v => vs.count v) from rfl, ← hcast,
    List.sum_map_count_dedup_eq_length]
  field_simp

/-- C6: for every non-empty labeled row set, the exact per-label
percentages sum to 100, and the two-decimal rounded percentages that
the app displays sum to 100 up to the rounding error of each term
(at most 1/200 per displayed label). -/
theorem c6_proportions_sum (vs : List Value) (h : vs ≠ []) :
    (proportionPercents vs).sum = 100 ∧
    |((proportionPercents vs).map round2).sum - 100|
      ≤ ((valueCounts vs).length : ℚ) / 200 := by
  refine ⟨proportionPercents_sum vs h, ?_⟩
  have hlen : (proportionPercents vs).length = (valueCounts vs).length := by
    simp [proportionPercents]
  rw [← hlen, ← proportionPercents_sum vs h]
  exact abs_sum_round2 (proportionPercents vs)

/-- Witness for C6 at a concrete three-row label column. -/
theorem c6_proportions_sum_witness :
    (([Value.str "Great", Value.str "Poor", Value.str "Great"] : List Value) ≠ []) ∧
    ((proportionPercents [Value.str "Great", Value.str "Poor", Value.str "Great"]).sum = 100 ∧
     |((proportionPercents [Value.str "Great", Value.str "Poor", Value.str "Great"]).map
         round2).sum - 100|
       ≤ ((valueCounts [Value.str "Great", Value.str "Poor", Value.str "Great"]).length : ℚ)
           / 200) :=
  ⟨by decide, c6_proportions_sum [Value.str "Great", Value.str "Poor", Value.str "Great"]
    (by decide)⟩

/-! ### Decimal rendering and re-reading of numeric cells. -/

theorem fromDigitsRev_toDigitsRevAux :
    ∀ f n : Nat, n ≤ f → fromDigitsRev (toDigitsRevAux f n) = n := by
  intro f
  induction f with
  | zero =>
      intro n hn
      have : n = 0 := Nat.le_zero.mp hn
      subst this
      rfl
  | succ f ih =>
      intro n hn
      cases n with
      | zero => rfl
      | succ k =>
          rw [toDigitsRevAux, fromDigitsRev]
          have hlt : (k + 1) / 10 < k + 1 := Nat.div_lt_self (Nat.succ_pos k) (by norm_num)
          rw [ih ((k + 1) / 10) (by omega)]
          omega

theorem toDigitsRevAux_lt_ten :
    ∀ f n d : Nat, d ∈ toDigitsRevAux f n → d < 10 := by
  intro f
  induction f with
  | zero =>
      intro n d hd
      cases n <;> simp [toDigitsRevAux] at hd
  | succ f ih =>
      intro n d hd
      cases n with
      | zero => simp [toDigitsRevAux] at hd
      | succ k =>
          rw [toDigitsRevAux] at hd
          rcases List.mem_cons.mp hd with h | h
          · subst h
            exact Nat.mod_lt _ (by norm_num)
          · exact ih _ d h

theorem digitChar_isDigit : ∀ d < 10, (digitChar d).isDigit = true := by decide

theorem digitChar_toNat : ∀ d < 10, (digitChar d).toNat - 48 = d := by decide

theorem foldl_digits (ds : List Nat) (h : ∀ d ∈ ds, d < 10) :
    ((ds.map digitChar).reverse).foldl (fun acc c => 10 * acc + (c.toNat - 48)) 0
      = fromDigitsRev ds := by
  induction ds with
  | nil => rfl
  | cons d ds ih =>
      simp only [List.map_cons, List.reverse_cons]
      rw [List.foldl_append, ih (fun x hx => h x (List.mem_cons_of_mem d hx))]
      simp only [List.foldl_cons, List.foldl_nil]
      rw [digitChar_toNat d (h d (List.mem_cons_self d ds)), fromDigitsRev]
      ring

theorem parseNatS_renderNat (n : Nat) : parseNatS (renderNat n) = n := by
  by_cases h0 : n = 0
  · subst h0; rfl
  · rw [renderNat, if_neg h0]
    have h1 := foldl_digits (toDigitsRev n) (fun d hd => toDigitsRevAux_lt_ten n n d hd)
    have h2 := fromDigitsRev_toDigitsRevAux n n le_rfl
    exact h1.trans h2

theorem isNatString_renderNat (n : Nat) : isNatString (renderNat n) = true := by
  by_cases h0 : n = 0
  · subst h0; rfl
  · rw [renderNat, if_neg h0]
    unfold isNatString
    rw [Bool.and_eq_true]
    constructor
    · rw [decide_eq_true_eq]
      intro hemp
      have hmap : (toDigitsRev n).map digitChar = [] := by
        have := congrArg List.reverse hemp
        simpa using this
      have hds : toDigitsRev n = [] := List.map_eq_nil_iff.mp hmap
      cases hn : n with
      | zero => exact h0 hn
      | succ k =>
          rw [hn] at hds
          simp [toDigitsRev, toDigitsRevAux] at hds
    · rw [List.all_eq_true]
      intro c hc
      rw [List.mem_reverse, List.mem_map] at hc
      obtain ⟨d, hd, rfl⟩ := hc
      exact digitChar_isDigit d (toDigitsRevAux_lt_ten n n d hd)

theorem getD_eq_of_lt {α : Type} (l : List α) (d : α) (i : Nat) (h : i < l.length) :
    l.getD i d = l[i] := by
  rw [List.getD_eq_getElem?_getD, List.getElem?_eq_getElem h]
  rfl

theorem list_map_id_of {α : Type} (l : List α) (f : α → α) (h : ∀ x ∈ l, f x = x) :
    l.map f = l := by
  induction l with
  | nil => rfl
  | cons x xs ih =>
      rw [List.map_cons, h x (List.mem_cons_self x xs),
        ih (fun y hy => h y (List.mem_cons_of_mem x hy))]

/-- C7 as amended: re-ingesting the exported delimited text reproduces
the table exactly, provided every column is homogeneous and every
string column keeps at least one value that does not read as a number
— the shape `read_csv` itself produces and alignment and labeling
preserve, but which row filtering can destroy. -/
theorem c7_roundtrip (t : Table) (hwf : t.WF)
    (hg : ∀ j < t.header.length, homogCol t j) :
    parseCSV t.toCSV = t := by
  obtain ⟨hd, rows⟩ := t
  rw [Table.toCSV, parseCSV]
  congr 1
  rw [List.map_map]
  apply list_map_id_of
  intro r hr
  have hrlen : r.length = hd.length := hwf r hr
  refine List.ext_getElem ?_ ?_
  · simp [hrlen]
  · intro i h1 h2
    simp only [Function.comp] at h1 ⊢
    simp only [List.getElem_map, List.getElem_range]
    have hi : i < hd.length := hrlen ▸ h2
    have hfield : (r.map renderCell).getD i "" = renderCell r[i] := by
      rw [getD_eq_of_lt _ _ _ (by simpa using h2), List.getElem_map]
    rw [hfield]
    rcases hg i hi with hnum | ⟨hstr, r0, hr0, hbad⟩
    · have hri := hnum r hr
      rw [getD_eq_of_lt _ _ _ h2] at hri
      cases hcell : r[i] with
      | str s => rw [hcell] at hri; simp [Value.isNum] at hri
      | num n =>
          have hcn : colNumeric (rows.map (fun r => r.map renderCell)) i = true := by
            unfold colNumeric
            rw [List.all_eq_true]
            intro rr hrr
            rw [List.mem_map] at hrr
            obtain ⟨r1, hr1, rfl⟩ := hrr
            have hlen1 : r1.length = hd.length := hwf r1 hr1
            have hlt1 : i < r1.length := hlen1 ▸ hi
            have hf1 : (r1.map renderCell).getD i "" = renderCell r1[i] := by
              rw [getD_eq_of_lt _ _ _ (by simpa using hlt1), List.getElem_map]
            rw [hf1]
            have hn1 := hnum r1 hr1
            rw [getD_eq_of_lt _ _ _ hlt1] at hn1
            cases hc1 : r1[i] with
            | str s => rw [hc1] at hn1; simp [Value.isNum] at hn1
            | num n1 => exact isNatString_renderNat n1
          rw [hcn]
          simp [parseField, renderCell, parseNatS_renderNat]
    · have hcn : colNumeric (rows.map (fun r => r.map renderCell)) i = false := by
        apply Bool.eq_false_iff.mpr
        intro hall
        unfold colNumeric at hall
        rw [List.all_eq_true] at hall
        have hlen0 : r0.length = hd.length := hwf r0 hr0
        have hlt0 : i < r0.length := hlen0 ▸ hi
        have hmem0 : r0.map renderCell ∈ rows.map (fun r => r.map renderCell) :=
          List.mem_map_of_mem _ hr0
        have hv := hall _ hmem0
        have hf0 : (r0.map renderCell).getD i "" = renderCell r0[i] := by
          rw [getD_eq_of_lt _ _ _ (by simpa using hlt0), List.getElem_map]
        rw [hf0] at hv
        rw [getD_eq_of_lt _ _ _ hlt0] at hbad
        cases hc0 : r0[i] with
        | num n0 => rw [hc0] at hbad; simp [strNotNumeric] at hbad
        | str s0 =>
            rw [hc0] at hbad hv
            simp only [strNotNumeric, Bool.not_eq_true'] at hbad
            simp only [renderCell] at hv
            rw [hbad] at hv
            exact Bool.noConfusion hv
      rw [hcn]
      have hri := hstr r hr
      rw [getD_eq_of_lt _ _ _ h2] at hri
      cases hcell : r[i] with
      | num n => rw [hcell] at hri; simp [Value.isNum] at hri
      | str s => simp [parseField, renderCell]

/-- C7 counterexample: the pipeline table `tRT` (upload with
`room_type` values `abc` and `1`, filtered to `room_type == "1"`) has
a string column whose only remaining value is the digit string `1`;
re-ingesting its export re-types that cell to the number 1, so the
round trip does not reproduce the table — and not because of column
order, since the headers agree. -/
theorem c7_counterexample :
    (parseCSV tRT.toCSV).header = tRT.header ∧ parseCSV tRT.toCSV ≠ tRT := by
  constructor
  · decide
  · decide

/-- Witness for the amended C7 at a concrete homogeneous table. -/
theorem c7_roundtrip_witness :
    (Table.WF ⟨["a", "b"], [[Value.num 3, Value.str "x1"], [Value.num 12, Value.str "y"]]⟩) ∧
    (∀ j < (["a", "b"] : List String).length,
      homogCol ⟨["a", "b"], [[Value.num 3, Value.str "x1"], [Value.num 12, Value.str "y"]]⟩ j) ∧
    parseCSV (Table.toCSV
        ⟨["a", "b"], [[Value.num 3, Value.str "x1"], [Value.num 12, Value.str "y"]]⟩)
      = ⟨["a", "b"], [[Value.num 3, Value.str "x1"], [Value.num 12, Value.str "y"]]⟩ :=
  ⟨by decide, by decide,
   c7_roundtrip ⟨["a", "b"], [[Value.num 3, Value.str "x1"], [Value.num 12, Value.str "y"]]⟩
     (by decide) (by decide)⟩
